import Mathlib

/-!
Verification development for the ASAP Sports baseball transcript scraper
(webscrape.py).  The Python source is shallowly embedded: HTML documents
become a rose tree (`Node`), BeautifulSoup operations become pure tree
traversals, the CSV store becomes a list of parse events, network access
becomes a function from URL to an optional parsed document, and the crawl
loop becomes a fold over the extracted link lists.  String operations are
modelled at the character-list level so that every definition evaluates
inside the kernel.
-/

/-! ### Character and string primitives (models of Python str operations,
ASCII scope, which covers every string the scraper manipulates) -/

/-- Python whitespace for str.strip and the regex class \s (ASCII part). -/
def isPySpace (c : Char) : Bool :=
  c = ' ' || c = '\t' || c = '\n' || c = '\r' || c = '\x0b' || c = '\x0c'

/-- Python str.strip(): drop leading and trailing whitespace. -/
def pyStrip (s : String) : String :=
  String.mk (((s.data.dropWhile isPySpace).reverse.dropWhile isPySpace).reverse)

/-- Regex class [A-Z]. -/
def isUpperA (c : Char) : Bool := 'A' ≤ c && c ≤ 'Z'

/-- Regex class [a-z]. -/
def isLowerA (c : Char) : Bool := 'a' ≤ c && c ≤ 'z'

/-- Regex class \d (ASCII part). -/
def isDigitA (c : Char) : Bool := '0' ≤ c && c ≤ '9'

/-- ASCII lowering of one character, as done by Python str.lower on the
ASCII strings the scraper compares. -/
def lowerA (c : Char) : Char := if isUpperA c then Char.ofNat (c.toNat + 32) else c

/-- Python str.lower (ASCII scope). -/
def strLower (s : String) : String := String.mk (s.data.map lowerA)

/-- Whether the first list is a prefix of the second. -/
def isPreOf : List Char → List Char → Bool
  | [], _ => true
  | _ :: _, [] => false
  | a :: as, b :: bs => a = b && isPreOf as bs

/-- Whether the needle (first argument) occurs inside the haystack. -/
def hasSubC : List Char → List Char → Bool
  | needle, [] => needle.isEmpty
  | needle, c :: cs => isPreOf needle (c :: cs) || hasSubC needle cs

/-- Python membership test needle in hay on strings. -/
def subStr (hay needle : String) : Bool := hasSubC needle.data hay.data

/-- Prefix of the haystack before the first occurrence of the needle
(the whole haystack when the needle does not occur). -/
def beforeSubC : List Char → List Char → List Char
  | _, [] => []
  | needle, c :: cs => if isPreOf needle (c :: cs) then [] else c :: beforeSubC needle cs

/-- Python text.split(marker)[0] under the guard marker in text: for the
nonempty markers used here this is the prefix before the first occurrence,
or the whole string when the marker is absent. -/
def splitFirst (hay needle : String) : String :=
  if subStr hay needle then String.mk (beforeSubC needle.data hay.data) else hay

/-- Suffix of the haystack after the first occurrence of the needle. -/
def afterSubC : List Char → List Char → Option (List Char)
  | _, [] => none
  | needle, c :: cs =>
    if isPreOf needle (c :: cs) then some ((c :: cs).drop needle.length)
    else afterSubC needle cs

/-- Whether a string starts with the given prefix text. -/
def startsW (s pre : String) : Bool := isPreOf pre.data s.data

/-- Split a character list on a separator character (Python str.split
with a one-character separator). -/
def splitOnC (sep : Char) : List Char → List (List Char)
  | [] => [[]]
  | c :: cs =>
    if c = sep then [] :: splitOnC sep cs
    else
      match splitOnC sep cs with
      | r :: rs => (c :: r) :: rs
      | [] => [[c]]

/-- Model of re.sub applied with pattern caret-open-bracket alternated with
close-bracket-dollar and empty replacement: remove one leading open bracket
and one trailing close bracket (webscrape.py line 108). -/
def stripBrackets (s : String) : String :=
  let cs :=
    match s.data with
    | c :: rest => if c = '[' then rest else c :: rest
    | [] => []
  let cs2 :=
    match cs.reverse with
    | c :: rest => if c = ']' then rest.reverse else cs
    | [] => cs
  String.mk cs2

/-! ### The date-heading pattern

Model of re.match with the anchored pattern used at webscrape.py lines 145
and 154: an uppercase letter, one or more lowercase letters, whitespace,
one or two digits, an optional comma, whitespace, and exactly four digits.
The input is always a stripped string, so the dollar anchor means end of
string.  Greedy deterministic scanning is equivalent to regex backtracking
for this pattern because each quantified class is disjoint from the class
that must follow it. -/

/-- Final component: exactly four digits and then the end of the string. -/
def dateTail4 : List Char → Bool
  | [a, b, c, d] => isDigitA a && isDigitA b && isDigitA c && isDigitA d
  | _ => false

/-- After the day digits: an optional comma, whitespace, four digits. -/
def dateAfterDay (v : List Char) : Bool :=
  let w := match v with
    | ',' :: t => t
    | _ => v
  match w with
  | c :: t => isPySpace c && dateTail4 (t.dropWhile isPySpace)
  | [] => false

/-- One or two day digits followed by the rest of the pattern. -/
def dateDigits : List Char → Bool
  | d1 :: d2 :: rest =>
    isDigitA d1 && (if isDigitA d2 then dateAfterDay rest else dateAfterDay (d2 :: rest))
  | [d1] => isDigitA d1 && dateAfterDay []
  | [] => false

/-- After the month word: whitespace and then the day digits. -/
def dateAfterWord : List Char → Bool
  | c :: t => isPySpace c && dateDigits (t.dropWhile isPySpace)
  | [] => false

/-- Whether a (stripped) heading matches the date pattern of the source. -/
def isDateHeading (s : String) : Bool :=
  match s.data with
  | c1 :: c2 :: cs => isUpperA c1 && isLowerA c2 && dateAfterWord (cs.dropWhile isLowerA)
  | _ => false

/-! ### Parsed HTML documents

A parsed document is a rose tree of elements and text nodes, the model of a
BeautifulSoup tree built by html.parser.  The document root is an element
whose tag is the marker string used by BeautifulSoup itself. -/

inductive Node where
  | text : String → Node
  | elem : String → List (String × String) → List Node → Node

/-- Tag name of a node (text nodes have none). -/
def tagOf : Node → String
  | Node.text _ => ""
  | Node.elem t _ _ => t

/-- Attribute lookup; html.parser keeps the first occurrence of a
duplicated attribute, matching the first-match lookup here. -/
def attrGet (n : Node) (key : String) : Option String :=
  match n with
  | Node.text _ => none
  | Node.elem _ attrs _ => (attrs.find? (fun kv => kv.1 = key)).map (fun kv => kv.2)

/-- Whether the node is an element with the given tag. -/
def isTag (tag : String) (n : Node) : Bool := tagOf n == tag

/-- Whether the node carries an href attribute. -/
def hasHref (n : Node) : Bool := (attrGet n "href").isSome

mutual
/-- Text-node contents below a node, in document order. -/
def nodeStrings : Node → List String
  | Node.text s => [s]
  | Node.elem _ _ cs => listStrings cs

/-- Text-node contents of a forest, in document order. -/
def listStrings : List Node → List String
  | [] => []
  | n :: ns => nodeStrings n ++ listStrings ns
end

/-- BeautifulSoup get_text(): concatenation of every text node below. -/
def getText (n : Node) : String := String.join (nodeStrings n)

/-- BeautifulSoup get_text(separator=sep, strip=True): each text node
stripped, empties dropped, the rest joined with the separator. -/
def getTextSepStrip (sep : String) (n : Node) : String :=
  String.intercalate sep (((nodeStrings n).map pyStrip).filter (fun s => s != ""))

mutual
/-- Matches of a predicate within a node, the node itself included,
in document order. -/
def nodeHits (p : Node → Bool) : Node → List Node
  | Node.text _ => []
  | Node.elem t a cs =>
    (if p (Node.elem t a cs) then [Node.elem t a cs] else []) ++ listHits p cs

/-- Matches of a predicate within a forest, in document order. -/
def listHits (p : Node → Bool) : List Node → List Node
  | [] => []
  | n :: ns => nodeHits p n ++ listHits p ns
end

/-- BeautifulSoup find_all with a predicate: matching strict descendants in
document order. -/
def Node.findAllP (n : Node) (p : Node → Bool) : List Node :=
  match n with
  | Node.text _ => []
  | Node.elem _ _ cs => listHits p cs

/-- BeautifulSoup find_all(tag). -/
def Node.findAll (n : Node) (tag : String) : List Node := n.findAllP (isTag tag)

/-- BeautifulSoup find(tag): first matching descendant in document order. -/
def Node.find (n : Node) (tag : String) : Option Node := (n.findAll tag).head?

mutual
/-- First element with the given tag in preorder, paired with its ancestor
chain (nearest ancestor first): models find(tag) together with the parent
links of the found node. -/
def nodeFindAnc (tag : String) (anc : List Node) : Node → Option (List Node × Node)
  | Node.text _ => none
  | Node.elem t a cs =>
    if t = tag then some (anc, Node.elem t a cs)
    else listFindAnc tag (Node.elem t a cs :: anc) cs

/-- Forest version of nodeFindAnc. -/
def listFindAnc (tag : String) (anc : List Node) : List Node → Option (List Node × Node)
  | [] => none
  | n :: ns =>
    match nodeFindAnc tag anc n with
    | some r => some r
    | none => listFindAnc tag anc ns
end

/-- First strict descendant with the given tag, with its ancestor chain. -/
def findWithAnc (s : Node) (tag : String) : Option (List Node × Node) :=
  match s with
  | Node.text _ => none
  | Node.elem _ _ cs => listFindAnc tag [s] cs

mutual
/-- All elements matching a predicate, each with its ancestor chain
(nearest first), in document order: models iterating find_all while the
parent links of each match stay available. -/
def nodeHitsAnc (p : Node → Bool) (anc : List Node) : Node → List (List Node × Node)
  | Node.text _ => []
  | Node.elem t a cs =>
    (if p (Node.elem t a cs) then [(anc, Node.elem t a cs)] else [])
      ++ listHitsAnc p (Node.elem t a cs :: anc) cs

/-- Forest version of nodeHitsAnc. -/
def listHitsAnc (p : Node → Bool) (anc : List Node) : List Node → List (List Node × Node)
  | [] => []
  | n :: ns => nodeHitsAnc p anc n ++ listHitsAnc p anc ns
end

/-- All matching strict descendants with their ancestor chains. -/
def Node.findAllAnc (s : Node) (p : Node → Bool) : List (List Node × Node) :=
  match s with
  | Node.text _ => []
  | Node.elem _ _ cs => listHitsAnc p [s] cs

mutual
/-- One node after the decompose loop of the fallback: dropped entirely if
it is a script, style or nav element, otherwise kept with its children
filtered the same way. -/
def stripKeep : Node → List Node
  | Node.text s => [Node.text s]
  | Node.elem t a cs =>
    if t = "script" ∨ t = "style" ∨ t = "nav" then []
    else [Node.elem t a (stripL cs)]

/-- Forest version of stripKeep. -/
def stripL : List Node → List Node
  | [] => []
  | n :: ns => stripKeep n ++ stripL ns
end

/-- Effect on a document of the loop that decomposes every script, style
and nav element (webscrape.py lines 197 to 198): the list of matches is
materialised before any removal, so the net effect is the removal of every
topmost such subtree. -/
def stripSSN : Node → Node
  | Node.text s => Node.text s
  | Node.elem t a cs => Node.elem t a (stripL cs)

/-! ### URL helpers (models of urllib.parse on the URL shapes involved) -/

/-- Scheme of an absolute URL. -/
def urlScheme (u : String) : String := String.mk (beforeSubC "://".data u.data)

/-- Network location of an absolute URL. -/
def urlNetloc (u : String) : String :=
  match afterSubC "://".data u.data with
  | some rest => String.mk (rest.takeWhile (fun c => c ≠ '/' && c ≠ '?' && c ≠ '#'))
  | none => ""

/-- Query component of a URL: after the first question mark, with any
fragment first removed. -/
def urlQuery (u : String) : String :=
  let cs := beforeSubC "#".data u.data
  match afterSubC "?".data cs with
  | some q => String.mk q
  | none => ""

/-- parse_qs(query).get(key, []): the values bound to the key, in order,
with blank values dropped as parse_qs does by default (percent decoding is
not modelled; the URLs involved contain none). -/
def qsGet (q key : String) : List String :=
  (splitOnC '&' q.data).filterMap (fun seg =>
    match afterSubC "=".data seg with
    | some v =>
      match v with
      | [] => none
      | _ => if String.mk (beforeSubC "=".data seg) = key then some (String.mk v) else none
    | none => none)

/-- Model of urllib.parse.urljoin specialised to the authority-only
absolute base URL used by the scraper: absolute references pass through,
scheme-relative, root-relative, relative, query and fragment references
attach to the base. -/
def urljoin (base href : String) : String :=
  if subStr href "://" then href
  else if startsW href "//" then urlScheme base ++ ":" ++ href
  else if startsW href "/" then base ++ href
  else if startsW href "?" || startsW href "#" then base ++ href
  else if href = "" then base
  else base ++ "/" ++ href

/-! ### Module constants (webscrape.py lines 18 to 36) -/

def LANDING_URL : String := "https://www.asapsports.com/showcat.php?id=2"

def BASE_URL : String := urlScheme LANDING_URL ++ "://" ++ urlNetloc LANDING_URL

def CATEGORY_ID : String :=
  match qsGet (urlQuery LANDING_URL) "id" with
  | v :: _ => v
  | [] => "2"

/-! ### Link extraction (webscrape.py lines 66 to 117) -/

/-- get_letter_urls (lines 66 to 71): one index URL per letter a to z. -/
def get_letter_urls : List String :=
  "abcdefghijklmnopqrstuvwxyz".data.map (fun letter =>
    BASE_URL ++ "/show_player.php?category=" ++ CATEGORY_ID ++ "&letter=" ++ String.mk [letter])

/-- Anchors selected by find_all with the tag a and href required. -/
def isHrefAnchor (n : Node) : Bool := isTag "a" n && hasHref n

/-- Loop body of get_player_links (lines 78 to 87): URL-pattern filter,
absolute URL, stripped label, and the seen-set check before appending. -/
def playerLoop : List Node → List String → List (String × String) → List (String × String)
  | [], _, out => out
  | a :: rest, seen, out =>
    let href := (attrGet a "href").getD ""
    if subStr href "show_player.php?id=" && !subStr href "letter=" then
      let url := urljoin BASE_URL href
      let name := pyStrip (getText a)
      if name ≠ "" ∧ url ∉ seen then
        playerLoop rest (url :: seen) (out ++ [(url, name)])
      else playerLoop rest seen out
    else playerLoop rest seen out

/-- get_player_links (lines 74 to 88). -/
def get_player_links (soup : Option Node) : List (String × String) :=
  match soup with
  | none => []
  | some s => playerLoop (s.findAllP isHrefAnchor) [] []

/-- Anchor filter of get_interview_links (lines 96 to 98). -/
def isInterviewAnchor (n : Node) : Bool :=
  isTag "a" n && hasHref n && subStr ((attrGet n "href").getD "") "show_interview.php?id="

/-- Date lookup of get_interview_links (lines 103 to 108): nearest
enclosing tr row, its first nobr descendant, brackets stripped. -/
def interviewDate (anc : List Node) : String :=
  match anc.find? (isTag "tr") with
  | none => ""
  | some tr =>
    match tr.find "nobr" with
    | none => ""
    | some nobr => stripBrackets (pyStrip (getText nobr))

/-- get_interview_links (lines 91 to 110): one triple of URL, title and
row date per matching anchor with nonempty text, in document order, with
no deduplication. -/
def get_interview_links (soup : Option Node) : List (String × String × String) :=
  match soup with
  | none => []
  | some s =>
    (s.findAllAnc isInterviewAnchor).filterMap (fun p =>
      let url := urljoin BASE_URL ((attrGet p.2 "href").getD "")
      let title := pyStrip (getText p.2)
      if title = "" then none
      else some (url, title, interviewDate p.1))

/-- parse_interview_id (lines 113 to 117). -/
def parse_interview_id (url : String) : Option String :=
  (qsGet (urlQuery url) "id").head?

/-! ### Record extraction (webscrape.py lines 120 to 207) -/

/-- The record built by extract_transcript_metadata_and_text. -/
structure TranscriptData where
  player_name : String
  interview_title : String
  date : String
  event : String
  venue : String
  team : String
  session_type : String
  transcript : String
deriving DecidableEq

/-- The all-empty record initialised at lines 122 to 131. -/
def emptyData : TranscriptData :=
  { player_name := "", interview_title := "", date := "", event := "",
    venue := "", team := "", session_type := "", transcript := "" }

/-- Venue keywords of line 158. -/
def venueKw : List String := ["field", "stadium", "park", "center"]

/-- Session keywords of line 160. -/
def sessionKw : List String := ["press", "conference", "session"]

/-- Team name tokens of lines 162 to 168. -/
def teamKw : List String :=
  ["twins", "yankees", "sox", "mets", "dodgers", "braves", "guardians",
   "angels", "mariners", "athletics", "rangers", "royals", "tigers",
   "rays", "orioles", "blue jays", "nationals", "phillies", "marlins",
   "cardinals", "cubs", "brewers", "pirates", "reds", "astros",
   "giants", "padres", "diamondbacks", "rockies", "indians"]

/-- Secondary venue keywords of lines 170 to 172. -/
def venueKw2 : List String := ["field", "stadium", "park", "center", "arena"]

/-- Python any(x in t.lower() for x in kws). -/
def anyKwIn (t : String) (kws : List String) : Bool :=
  kws.any (fun k => subStr (strLower t) k)

/-- One iteration of the h3 classification loop (lines 151 to 173), on the
heading at position i with stripped text t. -/
def classifyStep (i : Nat) (t : String) (d : TranscriptData) : TranscriptData :=
  if t = "" then d
  else if isDateHeading t then
    (if d.date = "" then { d with date := t } else d)
  else if d.player_name = "" then { d with player_name := t }
  else if anyKwIn t venueKw then { d with venue := t }
  else if anyKwIn t sessionKw then { d with session_type := t }
  else if d.team = "" ∧ anyKwIn t teamKw then { d with team := t }
  else if d.venue = "" ∧ subStr t "," ∧ 3 ≤ i ∧ anyKwIn t venueKw2 then { d with venue := t }
  else d

/-- The whole h3 classification loop from position i onward. -/
def classifyFrom (i : Nat) (ts : List String) (d : TranscriptData) : TranscriptData :=
  match ts with
  | [] => d
  | t :: rest => classifyFrom (i + 1) rest (classifyStep i t d)

/-- Title and date headers (lines 135 to 146): the first h1 text fills
event and interview_title, the first h2 text fills date when it matches
the date pattern. -/
def headerData (s : Node) : TranscriptData :=
  let d1 :=
    match s.find "h1" with
    | some h =>
      let e := pyStrip (getText h)
      { emptyData with event := e, interview_title := e }
    | none => emptyData
  match s.find "h2" with
  | some h =>
    let t := pyStrip (getText h)
    if isDateHeading t then { d1 with date := t } else d1
  | none => d1

/-- The stripped h3 texts of the document (lines 149 to 150). -/
def h3Texts (s : Node) : List String :=
  (s.findAll "h3").map (fun h => pyStrip (getText h))

/-- The main content container (line 176): the td enclosing the first h1. -/
def mainTd (s : Node) : Option Node :=
  match findWithAnc s "h1" with
  | none => none
  | some r => r.1.find? (isTag "td")

/-- The paragraph-loop break condition of line 181. -/
def transcriptMarker (t : String) : Bool :=
  subStr t "FastScripts Transcript" || subStr t "ASAP Sports, Inc"

/-- The paragraph collection loop (lines 179 to 184): stop permanently at
the first marker paragraph, keep nonempty texts. -/
def tier1Loop : List String → List String
  | [] => []
  | t :: ts =>
    if transcriptMarker t then []
    else if t = "" then tier1Loop ts
    else t :: tier1Loop ts

/-- Paragraph texts collected from the main content container. -/
def tier1Parts (s : Node) : List String :=
  match mainTd s with
  | none => []
  | some td => tier1Loop ((td.findAll "p").map (fun p => pyStrip (getText p)))

/-- The flattened-container text of lines 185 to 190: the container text
with line-break separators, truncated at each of two markers in turn, then
stripped; empty when the container is absent. -/
def tier2Text (s : Node) : String :=
  match mainTd s with
  | none => ""
  | some td =>
    let t1 := getTextSepStrip "\n" td
    let t2 := splitFirst t1 "FastScripts Transcript"
    let t3 := splitFirst t2 "ASAP Sports, Inc."
    pyStrip t3

/-- The transcript_parts value reaching line 191: the paragraph texts, or
else the nonempty flattened-container text as a single part. -/
def transcriptParts (s : Node) : List String :=
  match tier1Parts s with
  | [] => if tier2Text s = "" then [] else [tier2Text s]
  | ps => ps

/-- The id heuristic of line 199: an id attribute whose value contains
content, main or transcript, case-insensitively. -/
def idAttrMatches (n : Node) : Bool :=
  match attrGet n "id" with
  | some v =>
    subStr (strLower v) "content" || subStr (strLower v) "main" ||
      subStr (strLower v) "transcript"
  | none => false

/-- The _fallback_transcript_text function (lines 195 to 207), acting on
the document after its decompose loop has removed script, style and nav
elements. -/
def fallback_transcript_text (s : Node) : String :=
  let s2 := stripSSN s
  let m :=
    match (s2.findAllP idAttrMatches).head? with
    | some n => some n
    | none => s2.find "main"
  let body :=
    match m with
    | some n => some n
    | none =>
      match s2.find "body" with
      | some b => some b
      | none => some s2
  match body with
  | none => ""
  | some b =>
    let t1 := getTextSepStrip "\n" b
    let t2 := splitFirst t1 "FastScripts Transcript"
    let t3 := splitFirst t2 "ASAP Sports, Inc."
    let t4 := splitFirst t3 "Subscribe to RSS"
    pyStrip t4

/-- extract_transcript_metadata_and_text (lines 120 to 192). -/
def extract_transcript_metadata_and_text (soup : Option Node) : TranscriptData :=
  match soup with
  | none => emptyData
  | some s =>
    let d3 := classifyFrom 0 (h3Texts s) (headerData s)
    { d3 with
      transcript :=
        match transcriptParts s with
        | [] => fallback_transcript_text s
        | ps => String.intercalate "\n\n" ps }

/-- State of the parsed tree after extraction: the source mutates the soup
only in the decompose loop of _fallback_transcript_text, which runs exactly
when transcript_parts is empty at line 191. -/
def treeAfterExtract (soup : Option Node) : Option Node :=
  match soup with
  | none => none
  | some s =>
    match transcriptParts s with
    | [] => some (stripSSN s)
    | _ => some s

/-! ### Store scanning (webscrape.py lines 39 to 53)

The store file is modelled as a sequence of reader events: each event is
either a successfully parsed row or the point where the csv module or the
UTF-8 decoder raises (the two exception types caught at line 51).  A
missing file is the none case. -/

inductive CsvEvent where
  | row : List String → CsvEvent
  | err : CsvEvent
deriving DecidableEq

/-- Index of the last occurrence of a key in the header, matching the
last-wins binding of dict(zip(fieldnames, row)) inside DictReader. -/
def lastIdxOf (key : String) : List String → Option Nat
  | [] => none
  | x :: xs =>
    match lastIdxOf key xs with
    | some i => some (i + 1)
    | none => if x = key then some 0 else none

/-- Python set.add on the identifier set. -/
def setAdd (ids : List String) (v : String) : List String :=
  if v ∈ ids then ids else ids ++ [v]

/-- The row loop of load_scraped_ids (lines 48 to 50): collect nonempty
stripped identifiers until the first reader error, whose catch at lines 51
to 52 returns whatever was collected so far. -/
def collectIds (idx : Nat) : List CsvEvent → List String → List String
  | [], ids => ids
  | CsvEvent.err :: _, ids => ids
  | CsvEvent.row cells :: rest, ids =>
    match cells[idx]? with
    | some v => if v = "" then collectIds idx rest ids else collectIds idx rest (setAdd ids (pyStrip v))
    | none => collectIds idx rest ids

/-- load_scraped_ids (lines 39 to 53): empty for a missing file, an empty
file, a header that cannot be read, or a header without the identifier
column; otherwise the identifiers collected before the first error. -/
def load_scraped_ids (file : Option (List CsvEvent)) : List String :=
  match file with
  | none => []
  | some [] => []
  | some (CsvEvent.err :: _) => []
  | some (CsvEvent.row header :: rest) =>
    match lastIdxOf "interview_id" header with
    | some idx => collectIds idx rest []
    | none => []

/-! ### The crawl (webscrape.py lines 210 to 290)

The network is a function from URL to an optional parsed document (the
result of get_soup, line 56 to 63: none on any request failure).  The
crawl state carries the known-identifier set, the rows appended this run,
the new-record counter, and, as instrumentation for the resume property,
the list of document-page URLs that were fetched. -/

structure Env where
  fetch : String → Option Node

/-- One CSV row as assembled by scrape_interview. -/
structure CsvRow where
  player_name : String
  interview_title : String
  date : String
  event : String
  venue : String
  team : String
  session_type : String
  interview_id : String
  url : String
  transcript : String
deriving DecidableEq

/-- scrape_interview (lines 210 to 229): fetch the page, extract, then
override the name, fall back on the player-page title and prefer the
player-page date; none when the fetch failed. -/
def scrape_interview (env : Env) (url interview_id player_name interview_title
    date_from_player_page : String) : Option CsvRow :=
  match env.fetch url with
  | none => none
  | some soup =>
    let row := extract_transcript_metadata_and_text (some soup)
    some
      { player_name := player_name,
        interview_title :=
          if row.interview_title = "" then interview_title else row.interview_title,
        date := if date_from_player_page = "" then row.date else date_from_player_page,
        event := row.event, venue := row.venue, team := row.team,
        session_type := row.session_type, interview_id := interview_id,
        url := url, transcript := row.transcript }

structure CrawlState where
  scrapedIds : List String
  rows : List CsvRow
  totalNew : Nat
  docFetches : List String

/-- The per-interview body of the crawl loop (lines 277 to 289): skip
links without an identifier, skip known identifiers before any fetch,
otherwise fetch the document page and, on success, append the row, mark
the identifier known and bump the counter. -/
def processInterview (env : Env) (player_name : String) (st : CrawlState)
    (iv : String × String × String) : CrawlState :=
  match parse_interview_id iv.1 with
  | none => st
  | some iid =>
    if iid ∈ st.scrapedIds then st
    else
      let st1 : CrawlState := { st with docFetches := st.docFetches ++ [iv.1] }
      match scrape_interview env iv.1 iid player_name iv.2.1 iv.2.2 with
      | none => st1
      | some row =>
        { st1 with
          rows := st1.rows ++ [row],
          scrapedIds := st1.scrapedIds ++ [iid],
          totalNew := st1.totalNew + 1 }

/-- The per-player body of the crawl loop (lines 272 to 289): fetch the
player page, resolve the display name from its h1 when present, then walk
its interview links. -/
def processPlayer (env : Env) (st : CrawlState) (pl : String × String) : CrawlState :=
  let psoup := env.fetch pl.1
  let player_name :=
    match psoup with
    | some s =>
      match s.find "h1" with
      | some h => pyStrip (getText h)
      | none => pl.2
    | none => pl.2
  List.foldl (processInterview env player_name) st (get_interview_links psoup)

/-- The per-letter body of the crawl loop (lines 268 to 289). -/
def processLetter (env : Env) (st : CrawlState) (letter_url : String) : CrawlState :=
  let soup := env.fetch letter_url
  List.foldl (processPlayer env) st (get_player_links soup)

/-- run (lines 248 to 290): load the known identifiers when resume is on,
then walk the letter URLs, optionally truncated by max_letters. -/
def run (env : Env) (resume : Bool) (maxLetters : Option Nat)
    (file : Option (List CsvEvent)) : CrawlState :=
  let scraped := if resume then load_scraped_ids file else []
  let letters :=
    match maxLetters with
    | some n => get_letter_urls.take n
    | none => get_letter_urls
  List.foldl (processLetter env)
    { scrapedIds := scraped, rows := [], totalNew := 0, docFetches := [] } letters

/-! ### Concrete fixtures used by the theorems below -/

/-- A paragraph element with one text child. -/
def pElem (s : String) : Node := Node.elem "p" [] [Node.text s]

/-- Document whose main content container holds the body-truncation
fixture paragraph sequence of the spec. -/
def bodyFixtureDoc : Node :=
  Node.elem "[document]" []
    [Node.elem "td" []
      [Node.elem "h1" [] [Node.text "Event"],
       pElem "intro", pElem "middle",
       pElem "FastScripts Transcript footer", pElem "trailing"]]

/-- Entity page with two document anchors sharing one target URL. -/
def dupInterviewDoc : Node :=
  Node.elem "[document]" []
    [Node.elem "a" [("href", "show_interview.php?id=7")] [Node.text "First"],
     Node.elem "a" [("href", "show_interview.php?id=7")] [Node.text "Second"]]

/-- Letter page with two entity anchors sharing one target URL. -/
def dupPlayerDoc : Node :=
  Node.elem "[document]" []
    [Node.elem "a" [("href", "show_player.php?id=11")] [Node.text "First"],
     Node.elem "a" [("href", "show_player.php?id=11")] [Node.text "Second"]]

/-- Document whose main content container has no paragraph but does have
flattened text, while text outside the container also exists. -/
def paragraphFreeDoc : Node :=
  Node.elem "[document]" []
    [Node.elem "body" []
      [Node.elem "td" [] [Node.elem "h1" [] [Node.text "Title"], Node.text "hello"],
       Node.text "extra"]]

/-- Document with no main content container and a nav element, driving
extraction into the whole-document fallback. -/
def navOnlyDoc : Node :=
  Node.elem "[document]" [] [Node.elem "nav" [] [Node.text "menu"]]

/-- Document whose paragraph collection is nonempty. -/
def paragraphDoc : Node :=
  Node.elem "[document]" []
    [Node.elem "td" [] [Node.elem "h1" [] [Node.text "Hi"], pElem "hello"]]

/-- Well-formed store containing exactly the identifier X123. -/
def seededStore : Option (List CsvEvent) :=
  some [CsvEvent.row ["interview_id"], CsvEvent.row ["X123"]]

/-- Store with a valid header, one valid row, then a reader error. -/
def partlyMalformedStore : Option (List CsvEvent) :=
  some [CsvEvent.row ["interview_id"], CsvEvent.row ["A1"], CsvEvent.err]

/-- Network on which every request fails. -/
def envNone : Env := { fetch := fun _ => none }

/-- An empty crawl state. -/
def st0 : CrawlState := { scrapedIds := [], rows := [], totalNew := 0, docFetches := [] }

/-- A concrete document link for the fetch-failure theorem. -/
def iv0 : String × String × String :=
  ("https://www.asapsports.com/show_interview.php?id=9", "Title", "")

/-- A record whose date, player name and team are already filled. -/
def prefilledData : TranscriptData :=
  { emptyData with date := "D", player_name := "P", team := "T" }

/-- Document consisting of bare text, with no content container at all. -/
def plainTextDoc : Node := Node.elem "[document]" [] [Node.text "plain"]

/-- Invariant carried through the crawl for the resume property: the
seeded identifier stays known, no fetched document URL resolves to it, no
appended row carries it, and the counter counts the appended rows. -/
def ResumeInv (X : String) (st : CrawlState) : Prop :=
  X ∈ st.scrapedIds ∧
  (∀ u ∈ st.docFetches, parse_interview_id u ≠ some X) ∧
  (∀ r ∈ st.rows, r.interview_id ≠ X) ∧
  st.totalNew = st.rows.length

/-! ### Shared helper lemmas -/

/-- A fold preserves any invariant its step function preserves. -/
theorem foldl_preserves {α β : Type} (P : α → Prop) (f : α → β → α)
    (hf : ∀ st b, P st → P (f st b)) :
    ∀ (l : List β) (st : α), P st → P (List.foldl f st l) := by
  intro l
  induction l with
  | nil => intro st h; exact h
  | cons b t ih => intro st h; exact ih (f st b) (hf st b h)

/-- The player-link loop only emits URLs it has added to the seen set, so
its output URLs are pairwise distinct. -/
theorem playerLoop_nodup :
    ∀ (as : List Node) (seen : List String) (out : List (String × String)),
      (∀ u ∈ out.map Prod.fst, u ∈ seen) → (out.map Prod.fst).Nodup →
      ((playerLoop as seen out).map Prod.fst).Nodup := by
  intro as
  induction as with
  | nil =>
    intro seen out _ hnd
    simpa [playerLoop] using hnd
  | cons a rest ih =>
    intro seen out hsub hnd
    simp only [playerLoop]
    split
    · split
      · next hcond =>
        apply ih
        · intro u hu
          rw [List.map_append] at hu
          rcases List.mem_append.1 hu with h1 | h1
          · exact List.mem_cons_of_mem _ (hsub u h1)
          · simp only [List.map_cons, List.map_nil, List.mem_singleton] at h1
            subst h1
            exact List.mem_cons_self _ _
        · rw [List.map_append]
          refine List.Nodup.append hnd (by simp) ?_
          intro x hx hx2
          simp only [List.map_cons, List.map_nil, List.mem_singleton] at hx2
          subst hx2
          exact hcond.2 (hsub _ hx)
      · next => exact ih seen out hsub hnd
    · exact ih seen out hsub hnd

/-- One classification step never clears or replaces an already-filled
date, player name or team. -/
theorem classifyStep_keeps (i : Nat) (t : String) (d : TranscriptData) :
    (d.date ≠ "" → (classifyStep i t d).date = d.date) ∧
    (d.player_name ≠ "" → (classifyStep i t d).player_name = d.player_name) ∧
    (d.team ≠ "" → (classifyStep i t d).team = d.team) := by
  refine ⟨?_, ?_, ?_⟩ <;> intro h <;> unfold classifyStep <;> split_ifs <;>
    first | rfl | simp_all

/-- One classification step either leaves the player name alone or sets it
to the current heading, and only when that heading is not date-shaped. -/
theorem classifyStep_player_cases (i : Nat) (t : String) (d : TranscriptData) :
    (classifyStep i t d).player_name = d.player_name ∨
    ((classifyStep i t d).player_name = t ∧ isDateHeading t = false) := by
  unfold classifyStep
  split_ifs <;> first | exact Or.inl rfl | exact Or.inr ⟨rfl, by simp_all⟩

/-- Across the whole classification loop the player name never becomes a
date-shaped string it did not already equal. -/
theorem classifyFrom_player_not_dateShaped (X : String) (hX : isDateHeading X = true)
    (ts : List String) : ∀ (i : Nat) (d : TranscriptData),
      d.player_name ≠ X → (classifyFrom i ts d).player_name ≠ X := by
  induction ts with
  | nil => intro i d h; exact h
  | cons t rest ih =>
    intro i d h
    apply ih
    rcases classifyStep_player_cases i t d with hc | ⟨hc, hd⟩
    · rw [hc]; exact h
    · rw [hc]
      intro he
      rw [he, hX] at hd
      exact Bool.noConfusion hd

/-- The header pass never touches the player name. -/
theorem headerData_player (s : Node) : (headerData s).player_name = "" := by
  unfold headerData
  cases s.find "h1" <;> cases s.find "h2" <;>
    first | rfl | (dsimp only; split_ifs <;> rfl)

/-- Everything after the first reader error is invisible to the row loop. -/
theorem collectIds_stops (idx : Nat) (more : List CsvEvent) :
    ∀ (rest : List CsvEvent), CsvEvent.err ∉ rest → ∀ (ids : List String),
      collectIds idx (rest ++ CsvEvent.err :: more) ids = collectIds idx rest ids := by
  intro rest
  induction rest with
  | nil => intro _ ids; rfl
  | cons e t ih =>
    intro hne ids
    have hne2 : CsvEvent.err ∉ t := fun hmem => hne (List.mem_cons_of_mem _ hmem)
    cases e with
    | err => exact absurd (List.mem_cons_self _ _) hne
    | row cells =>
      simp only [List.cons_append, collectIds]
      cases cells[idx]? with
      | none => exact ih hne2 ids
      | some v =>
        dsimp only
        by_cases hv : v = ""
        · rw [if_pos hv, if_pos hv]
          exact ih hne2 ids
        · rw [if_neg hv, if_neg hv]
          exact ih hne2 _

/-- A successful scrape carries exactly the identifier it was given. -/
theorem scrape_interview_some_id (env : Env) (url iid pn it dp : String) (row : CsvRow)
    (h : scrape_interview env url iid pn it dp = some row) : row.interview_id = iid := by
  unfold scrape_interview at h
  revert h
  cases env.fetch url with
  | none => intro h; exact Option.noConfusion h
  | some soup =>
    intro h
    have h2 := Option.some.inj h
    rw [← h2]

/-- A fetch failure makes the whole scrape return none. -/
theorem scrape_interview_fetch_none (env : Env) (url iid pn it dp : String)
    (hf : env.fetch url = none) : scrape_interview env url iid pn it dp = none := by
  unfold scrape_interview
  rw [hf]

/-- The per-interview step preserves the resume invariant. -/
theorem processInterview_resumeInv (env : Env) (pn X : String) (st : CrawlState)
    (iv : String × String × String) (h : ResumeInv X st) :
    ResumeInv X (processInterview env pn st iv) := by
  obtain ⟨hX, hF, hR, hN⟩ := h
  unfold processInterview
  cases hp : parse_interview_id iv.1 with
  | none => exact ⟨hX, hF, hR, hN⟩
  | some iid =>
    dsimp only
    by_cases hmem : iid ∈ st.scrapedIds
    · rw [if_pos hmem]
      exact ⟨hX, hF, hR, hN⟩
    · rw [if_neg hmem]
      have hne : iid ≠ X := fun he => hmem (he ▸ hX)
      have hF2 : ∀ u ∈ st.docFetches ++ [iv.1], parse_interview_id u ≠ some X := by
        intro u hu
        rcases List.mem_append.1 hu with h1 | h1
        · exact hF u h1
        · rw [List.mem_singleton] at h1
          subst h1
          rw [hp]
          intro hc
          exact hne (Option.some.inj hc)
      cases hs : scrape_interview env iv.1 iid pn iv.2.1 iv.2.2 with
      | none => exact ⟨hX, hF2, hR, hN⟩
      | some row =>
        have hrid : row.interview_id = iid :=
          scrape_interview_some_id env iv.1 iid pn iv.2.1 iv.2.2 row hs
        refine ⟨List.mem_append.2 (Or.inl hX), hF2, ?_, ?_⟩
        · intro r hr
          rcases List.mem_append.1 hr with h1 | h1
          · exact hR r h1
          · rw [List.mem_singleton] at h1
            subst h1
            rw [hrid]
            exact hne
        · simp only [List.length_append, List.length_singleton]
          rw [hN]

/-- The per-player step preserves the resume invariant. -/
theorem processPlayer_resumeInv (env : Env) (X : String) (st : CrawlState)
    (pl : String × String) (h : ResumeInv X st) : ResumeInv X (processPlayer env st pl) := by
  unfold processPlayer
  exact foldl_preserves (ResumeInv X) _
    (fun st2 b h2 => processInterview_resumeInv env _ X st2 b h2) _ st h

/-- The per-letter step preserves the resume invariant. -/
theorem processLetter_resumeInv (env : Env) (X : String) (st : CrawlState)
    (lu : String) (h : ResumeInv X st) : ResumeInv X (processLetter env st lu) := by
  unfold processLetter
  exact foldl_preserves (ResumeInv X) _
    (fun st2 b h2 => processPlayer_resumeInv env X st2 b h2) _ st h

/-! ### The claims -/

/-- C1: with resume enabled and X among the identifiers loaded from the
store, the crawl fetches no document page whose URL resolves to X, appends
no row carrying X, and its new-record counter counts exactly the rows it
appended, so the seeded document is skipped before any fetch, append or
count update. -/
theorem C1_resume_never_refetches (env : Env) (maxLetters : Option Nat)
    (file : Option (List CsvEvent)) (X : String) (hX : X ∈ load_scraped_ids file) :
    ((run env true maxLetters file).docFetches.all
        (fun u => parse_interview_id u != some X)) = true ∧
    ((run env true maxLetters file).rows.all
        (fun r => r.interview_id != X)) = true ∧
    (run env true maxLetters file).totalNew
      = (run env true maxLetters file).rows.length := by
  have hinv : ResumeInv X (run env true maxLetters file) := by
    unfold run
    refine foldl_preserves (ResumeInv X) _
      (fun st b hb => processLetter_resumeInv env X st b hb) _ _ ?_
    refine ⟨by simpa using hX, ?_, ?_, rfl⟩
    · intro u hu
      exact absurd hu (List.not_mem_nil u)
    · intro r hr
      exact absurd hr (List.not_mem_nil r)
  obtain ⟨_, hF, hR, hN⟩ := hinv
  refine ⟨?_, ?_, hN⟩
  · rw [List.all_eq_true]
    intro u hu
    simpa using hF u hu
  · rw [List.all_eq_true]
    intro r hr
    simpa using hR r hr

/-- Witness for C1 at a concrete failing network, an empty letter budget
and a store seeded with X123. -/
theorem C1_resume_never_refetches_witness :
    ((run envNone true (some 0) seededStore).docFetches.all
        (fun u => parse_interview_id u != some "X123")) = true ∧
    ((run envNone true (some 0) seededStore).rows.all
        (fun r => r.interview_id != "X123")) = true ∧
    (run envNone true (some 0) seededStore).totalNew
      = (run envNone true (some 0) seededStore).rows.length :=
  C1_resume_never_refetches envNone (some 0) seededStore "X123" (by decide)

/-- C2 counterexample: in detail mode two anchors with the same target URL
yield two LinkRecords, not one, so the claimed deduplication in both
extraction modes fails on the entity-page extractor. -/
theorem C2_counterexample :
    get_interview_links (some dupInterviewDoc)
      = [("https://www.asapsports.com/show_interview.php?id=7", "First", ""),
         ("https://www.asapsports.com/show_interview.php?id=7", "Second", "")] := by
  decide

/-- C2 amended: only index mode deduplicates by URL within one call (its
output URLs are pairwise distinct, and with two equal-URL anchors the one
record carries the first-encountered label); detail mode emits one record
per matching anchor with nonempty text, duplicates included, in document
order. -/
theorem C2_dedup_only_in_index_mode :
    (∀ soup : Option Node, ((get_player_links soup).map Prod.fst).Nodup) ∧
    get_player_links (some dupPlayerDoc)
      = [("https://www.asapsports.com/show_player.php?id=11", "First")] := by
  constructor
  · intro soup
    cases soup with
    | none => simp [get_player_links]
    | some s =>
      exact playerLoop_nodup _ [] []
        (fun u hu => absurd hu (List.not_mem_nil u)) (by simp)
  · decide

/-- C3 counterexample: after the headings Jane Doe and Fenway Park have
set the venue, the later heading Yankee Stadium overwrites it, so the
venue field is not assigned at most once. -/
theorem C3_counterexample :
    (classifyFrom 0 ["Jane Doe", "Fenway Park"] emptyData).venue = "Fenway Park" ∧
    (classifyStep 2 "Yankee Stadium"
        (classifyFrom 0 ["Jane Doe", "Fenway Park"] emptyData)).venue
      = "Yankee Stadium" := by
  decide

/-- C3 amended: during heading classification the date, entityName and
team fields are assigned at most once (once set, no later heading changes
them, for every sequence of headings), but venue and sessionType may be
overwritten by later matching headings. -/
theorem C3_date_player_team_set_once (ts : List String) :
    ∀ (i : Nat) (d : TranscriptData),
      (d.date ≠ "" → (classifyFrom i ts d).date = d.date) ∧
      (d.player_name ≠ "" → (classifyFrom i ts d).player_name = d.player_name) ∧
      (d.team ≠ "" → (classifyFrom i ts d).team = d.team) := by
  induction ts with
  | nil => intro i d; exact ⟨fun _ => rfl, fun _ => rfl, fun _ => rfl⟩
  | cons t rest ih =>
    intro i d
    have hs := classifyStep_keeps i t d
    refine ⟨fun h => ?_, fun h => ?_, fun h => ?_⟩
    · have h1 := hs.1 h
      have h2 := (ih (i + 1) (classifyStep i t d)).1 (by rw [h1]; exact h)
      calc (classifyFrom i (t :: rest) d).date
          = (classifyFrom (i + 1) rest (classifyStep i t d)).date := rfl
        _ = (classifyStep i t d).date := h2
        _ = d.date := h1
    · have h1 := hs.2.1 h
      have h2 := (ih (i + 1) (classifyStep i t d)).2.1 (by rw [h1]; exact h)
      calc (classifyFrom i (t :: rest) d).player_name
          = (classifyFrom (i + 1) rest (classifyStep i t d)).player_name := rfl
        _ = (classifyStep i t d).player_name := h2
        _ = d.player_name := h1
    · have h1 := hs.2.2 h
      have h2 := (ih (i + 1) (classifyStep i t d)).2.2 (by rw [h1]; exact h)
      calc (classifyFrom i (t :: rest) d).team
          = (classifyFrom (i + 1) rest (classifyStep i t d)).team := rfl
        _ = (classifyStep i t d).team := h2
        _ = d.team := h1

/-- Witness for C3 at a prefilled record and two candidate headings. -/
theorem C3_date_player_team_set_once_witness :
    ((classifyFrom 0 ["October 4, 2023", "Boston Red Sox"] prefilledData).date
        = prefilledData.date) ∧
    ((classifyFrom 0 ["October 4, 2023", "Boston Red Sox"] prefilledData).player_name
        = prefilledData.player_name) ∧
    ((classifyFrom 0 ["October 4, 2023", "Boston Red Sox"] prefilledData).team
        = prefilledData.team) :=
  ⟨(C3_date_player_team_set_once ["October 4, 2023", "Boston Red Sox"] 0
      prefilledData).1 (by decide),
   (C3_date_player_team_set_once ["October 4, 2023", "Boston Red Sox"] 0
      prefilledData).2.1 (by decide),
   (C3_date_player_team_set_once ["October 4, 2023", "Boston Red Sox"] 0
      prefilledData).2.2 (by decide)⟩

/-- C4: on the fixture whose container paragraph sequence is intro,
middle, a marker paragraph, trailing, extraction returns exactly the first
two paragraphs joined with a blank line. -/
theorem C4_body_truncation :
    (extract_transcript_metadata_and_text (some bodyFixtureDoc)).transcript
      = "intro\n\nmiddle" := by
  decide

/-- C5 counterexample: a paragraph-free container with flattened text
yields that flattened text, not the result of the whole-document fallback,
although zero paragraphs were collected. -/
theorem C5_counterexample :
    tier1Parts paragraphFreeDoc = [] ∧
    (extract_transcript_metadata_and_text (some paragraphFreeDoc)).transcript
      = "Title\nhello" ∧
    fallback_transcript_text paragraphFreeDoc = "Title\nhello\nextra" ∧
    (extract_transcript_metadata_and_text (some paragraphFreeDoc)).transcript
      ≠ fallback_transcript_text paragraphFreeDoc := by
  decide

/-- C5 amended: when zero paragraphs are collected the code first tries
the flattened, marker-truncated text of the container itself; the
whole-document fallback produces the body text only when that flattened
text is also empty (in particular whenever the container is absent). -/
theorem C5_fallback_condition (s : Node) (h1 : tier1Parts s = [])
    (h2 : tier2Text s = "") :
    (extract_transcript_metadata_and_text (some s)).transcript
      = fallback_transcript_text s := by
  have hp : transcriptParts s = [] := by
    unfold transcriptParts
    rw [h1, h2]
    simp
  unfold extract_transcript_metadata_and_text
  dsimp only
  rw [hp]

/-- Witness for C5 at a document with no container at all. -/
theorem C5_fallback_condition_witness :
    (extract_transcript_metadata_and_text (some plainTextDoc)).transcript
      = fallback_transcript_text plainTextDoc :=
  C5_fallback_condition plainTextDoc (by decide) (by decide)

/-- C6: when the fetch of a document link fails, the crawl state is
unchanged by that link: no row is appended, the known-identifier set does
not grow, and the counter stays, so the document stays eligible for a
later run. -/
theorem C6_fetch_failure_state_unchanged (env : Env) (pn : String) (st : CrawlState)
    (iv : String × String × String) (hf : env.fetch iv.1 = none) :
    (processInterview env pn st iv).rows = st.rows ∧
    (processInterview env pn st iv).scrapedIds = st.scrapedIds ∧
    (processInterview env pn st iv).totalNew = st.totalNew := by
  unfold processInterview
  cases hp : parse_interview_id iv.1 with
  | none => exact ⟨rfl, rfl, rfl⟩
  | some iid =>
    dsimp only
    rw [scrape_interview_fetch_none env iv.1 iid pn iv.2.1 iv.2.2 hf]
    by_cases hmem : iid ∈ st.scrapedIds
    · rw [if_pos hmem]
      exact ⟨rfl, rfl, rfl⟩
    · rw [if_neg hmem]
      exact ⟨rfl, rfl, rfl⟩

/-- Witness for C6 at a concrete failing network and document link. -/
theorem C6_fetch_failure_state_unchanged_witness :
    (processInterview envNone "P" st0 iv0).rows = st0.rows ∧
    (processInterview envNone "P" st0 iv0).scrapedIds = st0.scrapedIds ∧
    (processInterview envNone "P" st0 iv0).totalNew = st0.totalNew :=
  C6_fetch_failure_state_unchanged envNone "P" st0 iv0 rfl

/-- C7: record extraction is a total function here, and on null input it
returns the record whose every field is the empty string. -/
theorem C7_null_input_all_empty :
    extract_transcript_metadata_and_text none = emptyData := rfl

/-- C8 counterexample: a store with a valid header, one valid row and then
a reader error loads the identifier from the valid prefix, not the empty
set, although the store is malformed. -/
theorem C8_counterexample :
    load_scraped_ids partlyMalformedStore = ["A1"] ∧
    load_scraped_ids partlyMalformedStore ≠ [] := by
  decide

/-- C8 amended: loading the known identifiers never raises (the two
caught reader exception types end the scan), returning the identifiers
collected from the rows before the first error, with everything from the
error onward ignored; a store whose very header is unreadable loads the
empty set, so such a crawl proceeds as a full re-crawl. -/
theorem C8_malformed_suffix_ignored (header : List String) (rest more : List CsvEvent)
    (hclean : CsvEvent.err ∉ rest) :
    load_scraped_ids (some (CsvEvent.row header :: (rest ++ CsvEvent.err :: more)))
      = load_scraped_ids (some (CsvEvent.row header :: rest)) ∧
    load_scraped_ids (some (CsvEvent.err :: more)) = [] := by
  refine ⟨?_, rfl⟩
  unfold load_scraped_ids
  dsimp only
  cases lastIdxOf "interview_id" header with
  | none => rfl
  | some idx => exact collectIds_stops idx more rest hclean []

/-- Witness for C8 at a concrete header, prefix and suffix. -/
theorem C8_malformed_suffix_ignored_witness :
    load_scraped_ids (some (CsvEvent.row ["interview_id"]
        :: ([CsvEvent.row ["B2"]] ++ CsvEvent.err :: [CsvEvent.row ["C3"]])))
      = load_scraped_ids (some (CsvEvent.row ["interview_id"] :: [CsvEvent.row ["B2"]])) ∧
    load_scraped_ids (some (CsvEvent.err :: [CsvEvent.row ["C3"]])) = [] :=
  C8_malformed_suffix_ignored ["interview_id"] [CsvEvent.row ["B2"]]
    [CsvEvent.row ["C3"]] (by decide)

/-- C9 counterexample: on a document that reaches the whole-document
fallback, extraction leaves the tree changed, with the nav element
removed, so the traversal is not read-only. -/
theorem C9_counterexample : treeAfterExtract (some navOnlyDoc) ≠ some navOnlyDoc := by
  intro h
  have hred : treeAfterExtract (some navOnlyDoc)
      = some (Node.elem "[document]" [] []) := rfl
  rw [hred] at h
  injection h with h1
  injection h1 with h2 h3 h4
  exact List.cons_ne_nil _ _ h4.symm

/-- C9 amended: extraction leaves the parsed tree unchanged except on the
whole-document fallback path, whose decompose loop removes script, style
and nav elements; whenever any transcript part was collected the tree is
untouched. -/
theorem C9_readonly_without_fallback (s : Node) (h : transcriptParts s ≠ []) :
    treeAfterExtract (some s) = some s := by
  unfold treeAfterExtract
  dsimp only
  cases hq : transcriptParts s with
  | nil => exact absurd hq h
  | cons a l => rfl

/-- Witness for C9 at a document with a paragraph. -/
theorem C9_readonly_without_fallback_witness :
    treeAfterExtract (some paragraphDoc) = some paragraphDoc :=
  C9_readonly_without_fallback paragraphDoc (by decide)

/-- C10: the date classifier accepts the heading Game 7, 2019 although
Game is no month name; such a heading sets the date field when it is
unset, and the entityName produced by extraction is never that heading,
for every document. -/
theorem C10_nonmonth_heading_is_date :
    isDateHeading "Game 7, 2019" = true ∧
    (∀ soup : Option Node,
      (extract_transcript_metadata_and_text soup).player_name ≠ "Game 7, 2019") ∧
    (∀ (i : Nat) (d : TranscriptData), d.date = "" →
      (classifyStep i "Game 7, 2019" d).date = "Game 7, 2019") := by
  refine ⟨by decide, ?_, ?_⟩
  · intro soup
    cases soup with
    | none => decide
    | some s =>
      have h0 : (headerData s).player_name = "" := headerData_player s
      have h1 := classifyFrom_player_not_dateShaped "Game 7, 2019" (by decide)
        (h3Texts s) 0 (headerData s) (by rw [h0]; decide)
      exact h1
  · intro i d hd
    show (if d.date = "" then { d with date := "Game 7, 2019" } else d).date
      = "Game 7, 2019"
    rw [if_pos hd]

/-- Witness for C10 at the null document and the empty record. -/
theorem C10_nonmonth_heading_is_date_witness :
    (extract_transcript_metadata_and_text none).player_name ≠ "Game 7, 2019" ∧
    (classifyStep 0 "Game 7, 2019" emptyData).date = "Game 7, 2019" :=
  ⟨C10_nonmonth_heading_is_date.2.1 none,
   C10_nonmonth_heading_is_date.2.2 0 emptyData rfl⟩
